import Mathlib

/-!
# Verification of the pattern-correlation routines

Shallow embedding of `src/pattern_correlation.py` from the repository
`North_Atlantic_SST_pattern`.

Modelling choices:
* An n-dimensional numpy array is a row-major flat list of entries together
  with its shape; a missing value (NaN) is `Option.none`.  Floating-point
  numbers are modelled by exact rationals `ℚ`; the final square roots (and the
  latitude cosine weights of the wrapper) live in `ℝ`.
* The source's zero-variance guard
  `std1 == 0 or std2 == 0 or abs(std1) < 1e-10 or abs(std2) < 1e-10`
  with `std = sqrt(var)` is expressed on the variance directly:
  for `0 ≤ v`, `sqrt v = 0 ∨ |sqrt v| < 1e-10` iff `v < 1e-20`
  (theorem `PatternCorrelation.sqrt_tol_iff` below justifies the translation).
  A negative variance, reachable only through negative weights, produces a NaN
  result in floating point (`sqrt` of a negative); the embedding folds this
  non-finite outcome into the zero-variance failure, since `Real.sqrt` of a
  negative has no counterpart of NaN.
* Division by zero (normalising an all-zero weight vector) follows the Lean
  convention `q / 0 = 0`, where numpy would produce NaN weights.
* Weight arrays are modelled without missing values (the repository only ever
  builds them from latitudes or ones).
-/

namespace PatternCorrelation

set_option linter.unusedSectionVars false

/-- The distinct `ValueError`s raised by the two routines, plus the wrapper's
missing-dimension error. -/
inductive CorrError where
  /-- "Patterns must have the same shape" (line 77) -/
  | shapeMismatch : CorrError
  /-- "No valid (non-NaN) data points found in both patterns" (line 90) -/
  | emptyInput : CorrError
  /-- "Weights must have the same shape as patterns" (line 102) -/
  | weightShapeMismatch : CorrError
  /-- "One or both patterns have zero variance" (line 131) -/
  | zeroVariance : CorrError
  /-- "Latitude dimension ... not found in data1" (line 188) -/
  | missingDimension : CorrError
  deriving DecidableEq, Repr

instance exceptDecEq {ε σ : Type} [DecidableEq ε] [DecidableEq σ] :
    DecidableEq (Except ε σ) := fun x y =>
  match x, y with
  | .error a, .error b =>
      if h : a = b then .isTrue (by rw [h]) else .isFalse (by simp [h])
  | .ok a, .ok b =>
      if h : a = b then .isTrue (by rw [h]) else .isFalse (by simp [h])
  | .error _, .ok _ => .isFalse (by simp)
  | .ok _, .error _ => .isFalse (by simp)

/-- An n-dimensional numeric array: a shape and the row-major flat data,
`none` marking a missing value (NaN).  `numpy` guarantees
`size = prod(shape)`, recorded as the invariant `hlen`. -/
structure NDArray (α : Type) where
  shape : List Nat
  data : List (Option α)
  hlen : data.length = shape.prod

/-- A weight array: same layout as `NDArray` but with no missing values. -/
structure WArray (α : Type) where
  shape : List Nat
  data : List α
  hlen : data.length = shape.prod

/-- `valid_mask = ~(isnan(p1) | isnan(p2))` on the flattened data (line 88). -/
def validMask {α : Type} (p1 p2 : List (Option α)) : List Bool :=
  List.zipWith (fun a b => a.isSome && b.isSome) p1 p2

/-- Boolean-mask indexing `xs[mask]` of numpy: keep the entries whose mask
bit is true. -/
def maskFilter {β : Type} (mask : List Bool) (xs : List β) : List β :=
  ((mask.zip xs).filter (fun mx => mx.1)).map (fun mx => mx.2)

/-- Strip the `Option` layer from entries already known valid (`getD 0` is
never exercised at masked positions). -/
def strip {α : Type} [Zero α] (xs : List (Option α)) : List α :=
  xs.map (fun o => o.getD 0)

/-- `np.sum(xs * ys)`: elementwise product, then sum. -/
def dot {α : Type} [Mul α] [AddCommMonoid α] (xs ys : List α) : α :=
  (List.zipWith (fun x y => x * y) xs ys).sum

/-- `np.sum(w * a * b)`: the weighted sums of products used for the
covariance (`a*b`), and the variances (`a = b`). -/
def wdot {α : Type} [Mul α] [AddCommMonoid α] (w a b : List α) : α :=
  (List.zipWith (fun x y => x * y) w (List.zipWith (fun x y => x * y) a b)).sum

variable {α : Type} [LinearOrderedField α] [∀ a b : α, Decidable (a < b)]

/-- The valid entries of each pattern: `pattern_flat[valid_mask]`
(lines 94-95). -/
def validVals (p1 p2 : NDArray α) : List α × List α :=
  let mask := validMask p1.data p2.data
  (strip (maskFilter mask p1.data), strip (maskFilter mask p2.data))

/-- The weights actually entering the sums: ones (no weights) or the supplied
weights restricted to the valid set, then normalised by their sum
(lines 97-111). -/
def usedWeights (p1 p2 : NDArray α) (weights : Option (WArray α)) : List α :=
  let mask := validMask p1.data p2.data
  let wvalid : List α :=
    match weights with
    | none => List.replicate (strip (maskFilter mask p1.data)).length 1
    | some w => maskFilter mask w.data
  wvalid.map (fun x => x / wvalid.sum)

/-- Centering (lines 113-121): subtract the weighted mean
`np.sum(vals * weights)` when requested, else keep the raw values. -/
def centeredVals (vals wn : List α) (centered : Bool) : List α :=
  if centered then vals.map (fun x => x - dot vals wn) else vals

/-- The variance tolerance: `std < 1e-10` on the standard deviation becomes
`var < 1e-20` on the variance. -/
def tol : α := 1 / 10 ^ 20

/-- The weight-shape validation of lines 100-106 (`false` when no weights are
supplied). -/
def badWeightShape (p1 : NDArray α) (weights : Option (WArray α)) : Bool :=
  match weights with
  | none => false
  | some w => decide (w.shape ≠ p1.shape)

/-- The centered first pattern, `pattern1_centered` (lines 113-121). -/
def c1Vals (p1 p2 : NDArray α) (weights : Option (WArray α))
    (centered : Bool) : List α :=
  centeredVals (validVals p1 p2).1 (usedWeights p1 p2 weights) centered

/-- The centered second pattern, `pattern2_centered` (lines 113-121). -/
def c2Vals (p1 p2 : NDArray α) (weights : Option (WArray α))
    (centered : Bool) : List α :=
  centeredVals (validVals p1 p2).2 (usedWeights p1 p2 weights) centered

/-- `covariance = np.sum(weights_valid * pattern1_centered * pattern2_centered)`
(line 124). -/
def corrCov (p1 p2 : NDArray α) (weights : Option (WArray α))
    (centered : Bool) : α :=
  wdot (usedWeights p1 p2 weights) (c1Vals p1 p2 weights centered)
    (c2Vals p1 p2 weights centered)

/-- `np.sum(weights_valid * pattern1_centered**2)`, the square of `std1`
(line 127). -/
def corrVar1 (p1 p2 : NDArray α) (weights : Option (WArray α))
    (centered : Bool) : α :=
  wdot (usedWeights p1 p2 weights) (c1Vals p1 p2 weights centered)
    (c1Vals p1 p2 weights centered)

/-- `np.sum(weights_valid * pattern2_centered**2)`, the square of `std2`
(line 128). -/
def corrVar2 (p1 p2 : NDArray α) (weights : Option (WArray α))
    (centered : Bool) : α :=
  wdot (usedWeights p1 p2 weights) (c2Vals p1 p2 weights centered)
    (c2Vals p1 p2 weights centered)

/-- `calculate_pattern_correlation` up to (and including) the zero-variance
check, returning the triple (covariance, variance1, variance2) whose square
roots the source then combines (lines 76-132).  Generic in the number type so
that the wrapper can instantiate it at `ℝ` for its cosine weights. -/
def checkedCore (p1 p2 : NDArray α) (weights : Option (WArray α))
    (centered : Bool) : Except CorrError (α × α × α) :=
  if p1.shape ≠ p2.shape then .error .shapeMismatch
  else if (validMask p1.data p2.data).count true = 0 then .error .emptyInput
  else if badWeightShape p1 weights then .error .weightShapeMismatch
  else if corrVar1 p1 p2 weights centered < tol ∨
          corrVar2 p1 p2 weights centered < tol then .error .zeroVariance
  else .ok (corrCov p1 p2 weights centered, corrVar1 p1 p2 weights centered,
            corrVar2 p1 p2 weights centered)

/-- `covariance / (std1 * std2)` (lines 127-134). -/
noncomputable def corrOfTriple (t : ℝ × ℝ × ℝ) : ℝ :=
  t.1 / (Real.sqrt t.2.1 * Real.sqrt t.2.2)

/-- The full `calculate_pattern_correlation` (lines 13-136): either a raised
`ValueError` or the real-valued correlation coefficient. -/
noncomputable def calculate_pattern_correlation (p1 p2 : NDArray ℚ)
    (weights : Option (WArray ℚ)) (centered : Bool) : Except CorrError ℝ :=
  (checkedCore p1 p2 weights centered).map
    (fun t => corrOfTriple ((t.1 : ℝ), (t.2.1 : ℝ), (t.2.2 : ℝ)))

/-- An `xr.DataArray`: named dimensions, per-dimension coordinate values (in
degrees for latitudes), and the underlying numeric array. -/
structure DataArray where
  dims : List String
  coords : String → List ℚ
  arr : NDArray ℚ

/-- Inject a rational pattern into the reals (the wrapper's weights are
cosines, so its core call happens over `ℝ`). -/
def castND (p : NDArray ℚ) : NDArray ℝ :=
  ⟨p.shape, p.data.map (fun o => o.map (fun q => (q : ℝ))), by
    simpa using p.hlen⟩

/-- `weight_array * xr.ones_like(data1)` (lines 199-205): replicate the 1-D
per-latitude weights across all other dimensions.  In row-major order the
latitude index of flat position `j` is `j / stride % size`, where `size` is
the extent of the latitude axis and `stride` the product of the extents of
the later axes. -/
def latBroadcast (dims : List String) (shape : List Nat) (latDim : String)
    (w : List ℝ) : List ℝ :=
  let pos := dims.indexOf latDim
  let stride := (shape.drop (pos + 1)).prod
  let size := shape.getD pos 1
  (List.range shape.prod).map (fun j => w.getD (j / stride % size) 0)

set_option linter.unusedVariables false in
/-- `calculate_spatial_correlation` (lines 139-212): optional cosine-latitude
area weighting, then delegation to the core routine.  (`lon_dim` is accepted
and unused, exactly as in the source.) -/
noncomputable def calculate_spatial_correlation (data1 data2 : DataArray)
    (lat_dim lon_dim : String) (area_weighted : Bool) : Except CorrError ℝ :=
  if area_weighted then
    if lat_dim ∉ data1.dims then .error .missingDimension
    else
      let lats := data1.coords lat_dim
      let w : List ℝ := lats.map (fun l => Real.cos ((l : ℝ) * Real.pi / 180))
      let wa : WArray ℝ :=
        ⟨data1.arr.shape, latBroadcast data1.dims data1.arr.shape lat_dim w,
         by simp [latBroadcast]⟩
      (checkedCore (castND data1.arr) (castND data2.arr) (some wa) true).map
        corrOfTriple
  else
    calculate_pattern_correlation data1.arr data2.arr none true

/-- Justification for phrasing the source's guard on the variance: for a
nonnegative variance, the standard deviation `sqrt v` vanishes or falls below
`1e-10` exactly when `v < 1e-20`. -/
theorem sqrt_tol_iff (v : ℝ) (hv : 0 ≤ v) :
    (Real.sqrt v = 0 ∨ |Real.sqrt v| < 1 / 10 ^ 10) ↔ v < 1 / 10 ^ 20 := by
  rw [abs_of_nonneg (Real.sqrt_nonneg v)]
  constructor
  · rintro (h | h)
    · have h' : v ≤ 0 := Real.sqrt_eq_zero'.mp h
      have hv0 : v = 0 := le_antisymm h' hv
      rw [hv0]; norm_num
    · have h2 : Real.sqrt v ^ 2 < (1 / 10 ^ 10 : ℝ) ^ 2 := by
        have := Real.sqrt_nonneg v
        nlinarith
      rw [Real.sq_sqrt hv] at h2
      calc v < (1 / 10 ^ 10 : ℝ) ^ 2 := h2
        _ = 1 / 10 ^ 20 := by norm_num
  · intro h
    right
    have : v < (1 / 10 ^ 10 : ℝ) ^ 2 := by norm_num at h ⊢; linarith
    calc Real.sqrt v < Real.sqrt ((1 / 10 ^ 10 : ℝ) ^ 2) :=
          (Real.sqrt_lt_sqrt hv this)
      _ = 1 / 10 ^ 10 := Real.sqrt_sq (by norm_num)

/-! ## Branch lemmas for `checkedCore` and `calculate_pattern_correlation` -/

theorem checkedCore_of_shape_ne {p1 p2 : NDArray α} {w : Option (WArray α)}
    {c : Bool} (h : p1.shape ≠ p2.shape) :
    checkedCore p1 p2 w c = .error .shapeMismatch := by
  simp [checkedCore, h]

theorem checkedCore_of_empty {p1 p2 : NDArray α} {w : Option (WArray α)}
    {c : Bool} (hsh : p1.shape = p2.shape)
    (h0 : (validMask p1.data p2.data).count true = 0) :
    checkedCore p1 p2 w c = .error .emptyInput := by
  simp [checkedCore, hsh, h0]

theorem checkedCore_of_badWeight {p1 p2 : NDArray α} {w : Option (WArray α)}
    {c : Bool} (hsh : p1.shape = p2.shape)
    (h0 : (validMask p1.data p2.data).count true ≠ 0)
    (hb : badWeightShape p1 w = true) :
    checkedCore p1 p2 w c = .error .weightShapeMismatch := by
  simp [checkedCore, hsh, h0, hb]

theorem checkedCore_of_lowVar {p1 p2 : NDArray α} {w : Option (WArray α)}
    {c : Bool} (hsh : p1.shape = p2.shape)
    (h0 : (validMask p1.data p2.data).count true ≠ 0)
    (hb : badWeightShape p1 w = false)
    (hv : corrVar1 p1 p2 w c < tol ∨ corrVar2 p1 p2 w c < tol) :
    checkedCore p1 p2 w c = .error .zeroVariance := by
  simp [checkedCore, hsh, h0, hb, hv]

theorem checkedCore_of_ok {p1 p2 : NDArray α} {w : Option (WArray α)}
    {c : Bool} (hsh : p1.shape = p2.shape)
    (h0 : (validMask p1.data p2.data).count true ≠ 0)
    (hb : badWeightShape p1 w = false)
    (hv1 : tol ≤ corrVar1 p1 p2 w c) (hv2 : tol ≤ corrVar2 p1 p2 w c) :
    checkedCore p1 p2 w c =
      .ok (corrCov p1 p2 w c, corrVar1 p1 p2 w c, corrVar2 p1 p2 w c) := by
  have hv : ¬(corrVar1 p1 p2 w c < tol ∨ corrVar2 p1 p2 w c < tol) := by
    push_neg
    exact ⟨hv1, hv2⟩
  simp [checkedCore, hsh, h0, hb, hv]

/-- Inversion: every outcome of `checkedCore` arises from exactly one of its
branches. -/
theorem checkedCore_ok_inv {p1 p2 : NDArray α} {w : Option (WArray α)}
    {c : Bool} {t : α × α × α} (h : checkedCore p1 p2 w c = .ok t) :
    p1.shape = p2.shape ∧ (validMask p1.data p2.data).count true ≠ 0 ∧
    badWeightShape p1 w = false ∧
    tol ≤ corrVar1 p1 p2 w c ∧ tol ≤ corrVar2 p1 p2 w c ∧
    t = (corrCov p1 p2 w c, corrVar1 p1 p2 w c, corrVar2 p1 p2 w c) := by
  by_cases hsh : p1.shape = p2.shape
  · by_cases h0 : (validMask p1.data p2.data).count true = 0
    · rw [checkedCore_of_empty hsh h0] at h
      exact absurd h (by simp)
    · by_cases hb : badWeightShape p1 w = true
      · rw [checkedCore_of_badWeight hsh h0 hb] at h
        exact absurd h (by simp)
      · have hb' : badWeightShape p1 w = false := by
          simpa using hb
        by_cases hv : corrVar1 p1 p2 w c < tol ∨ corrVar2 p1 p2 w c < tol
        · rw [checkedCore_of_lowVar hsh h0 hb' hv] at h
          exact absurd h (by simp)
        · push_neg at hv
          rw [checkedCore_of_ok hsh h0 hb' hv.1 hv.2] at h
          exact ⟨hsh, h0, hb', hv.1, hv.2, by simpa using h.symm⟩
  · rw [checkedCore_of_shape_ne hsh] at h
    exact absurd h (by simp)

theorem calc_error_iff {p1 p2 : NDArray ℚ} {w : Option (WArray ℚ)} {c : Bool}
    {e : CorrError} :
    calculate_pattern_correlation p1 p2 w c = .error e ↔
      checkedCore p1 p2 w c = .error e := by
  cases h : checkedCore p1 p2 w c <;>
    simp [calculate_pattern_correlation, h, Except.map]

theorem calc_of_ok {p1 p2 : NDArray ℚ} {w : Option (WArray ℚ)} {c : Bool}
    {t : ℚ × ℚ × ℚ} (h : checkedCore p1 p2 w c = .ok t) :
    calculate_pattern_correlation p1 p2 w c =
      .ok (corrOfTriple ((t.1 : ℝ), (t.2.1 : ℝ), (t.2.2 : ℝ))) := by
  simp [calculate_pattern_correlation, h, Except.map]

theorem calc_ok_inv {p1 p2 : NDArray ℚ} {w : Option (WArray ℚ)} {c : Bool}
    {r : ℝ} (h : calculate_pattern_correlation p1 p2 w c = .ok r) :
    checkedCore p1 p2 w c =
      .ok (corrCov p1 p2 w c, corrVar1 p1 p2 w c, corrVar2 p1 p2 w c) ∧
    tol ≤ corrVar1 p1 p2 w c ∧ tol ≤ corrVar2 p1 p2 w c ∧
    r = corrOfTriple (((corrCov p1 p2 w c : ℚ) : ℝ),
          ((corrVar1 p1 p2 w c : ℚ) : ℝ), ((corrVar2 p1 p2 w c : ℚ) : ℝ)) := by
  have h1 : ∃ t, checkedCore p1 p2 w c = .ok t := by
    cases hc : checkedCore p1 p2 w c with
    | error e =>
        rw [calculate_pattern_correlation, hc] at h
        exact absurd h (by simp [Except.map])
    | ok t => exact ⟨t, rfl⟩
  obtain ⟨t, hc⟩ := h1
  obtain ⟨_, _, _, hv1, hv2, ht⟩ := checkedCore_ok_inv hc
  subst ht
  rw [calculate_pattern_correlation, hc] at h
  simp only [Except.map, Except.ok.injEq] at h
  exact ⟨hc, hv1, hv2, h.symm⟩

/-! ## List toolkit -/

@[simp] theorem maskFilter_nil_left {β : Type} (xs : List β) :
    maskFilter [] xs = [] := by
  simp [maskFilter]

@[simp] theorem maskFilter_nil_right {β : Type} (m : List Bool) :
    maskFilter m ([] : List β) = [] := by
  simp [maskFilter]

@[simp] theorem maskFilter_cons {β : Type} (b : Bool) (m : List Bool)
    (x : β) (xs : List β) :
    maskFilter (b :: m) (x :: xs) =
      if b then x :: maskFilter m xs else maskFilter m xs := by
  cases b <;> simp [maskFilter, List.filter, List.zip]

@[simp] theorem strip_nil {β : Type} [Zero β] : strip ([] : List (Option β)) = [] := rfl

@[simp] theorem strip_cons {β : Type} [Zero β] (o : Option β)
    (l : List (Option β)) : strip (o :: l) = o.getD 0 :: strip l := rfl

@[simp] theorem validMask_nil_left {β : Type} (qs : List (Option β)) :
    validMask [] qs = [] := by
  simp [validMask]

@[simp] theorem validMask_nil_right {β : Type} (ps : List (Option β)) :
    validMask ps [] = [] := by
  simp [validMask]

@[simp] theorem validMask_cons {β : Type} (a b : Option β)
    (ps qs : List (Option β)) :
    validMask (a :: ps) (b :: qs) =
      (a.isSome && b.isSome) :: validMask ps qs := rfl

theorem maskFilter_length {β : Type} {m : List Bool} {xs : List β}
    (h : m.length ≤ xs.length) :
    (maskFilter m xs).length = m.count true := by
  induction m generalizing xs with
  | nil => simp
  | cons b m ih =>
      cases xs with
      | nil => simp at h
      | cons x xs =>
          simp only [List.length_cons, Nat.add_le_add_iff_right] at h
          cases b <;> simp [ih h, List.count_cons]

theorem mem_of_mem_maskFilter {β : Type} {m : List Bool} {xs : List β} {x : β}
    (h : x ∈ maskFilter m xs) : x ∈ xs := by
  induction m generalizing xs with
  | nil => simp at h
  | cons b m ih =>
      cases xs with
      | nil => simp at h
      | cons y ys =>
          rw [maskFilter_cons] at h
          cases b with
          | false => exact List.mem_cons_of_mem _ (ih (by simpa using h))
          | true =>
              simp only [if_true] at h
              rcases List.mem_cons.mp h with h | h
              · exact h ▸ List.mem_cons_self _ _
              · exact List.mem_cons_of_mem _ (ih h)

theorem maskFilter_replicate {β : Type} {m : List Bool} {n : Nat} (x : β)
    (h : m.length ≤ n) :
    maskFilter m (List.replicate n x) = List.replicate (m.count true) x := by
  induction m generalizing n with
  | nil => simp
  | cons b m ih =>
      cases n with
      | zero => simp at h
      | succ n =>
          simp only [List.length_cons, Nat.add_le_add_iff_right] at h
          cases b <;>
            simp [List.replicate_succ, ih h, List.count_cons, List.replicate]

theorem sum_map_div {l : List α} {s : α} :
    (l.map (fun x => x / s)).sum = l.sum / s := by
  induction l with
  | nil => simp
  | cons x l ih => simp [ih, add_div]

theorem sum_replicate_q (n : Nat) (x : α) :
    (List.replicate n x).sum = (n : α) * x := by
  induction n with
  | zero => simp
  | succ n ih =>
      simp [List.replicate_succ, ih, add_mul]
      ring

/-! ## `wdot`: positivity and the Cauchy-Schwarz inequality -/

@[simp] theorem wdot_nil_left (a b : List α) : wdot ([] : List α) a b = 0 := by
  simp [wdot]

@[simp] theorem wdot_nil_mid (w b : List α) : wdot w ([] : List α) b = 0 := by
  cases w <;> simp [wdot]

@[simp] theorem wdot_nil_right (w a : List α) : wdot w a ([] : List α) = 0 := by
  cases w <;> cases a <;> simp [wdot]

@[simp] theorem wdot_cons (x y z : α) (w a b : List α) :
    wdot (x :: w) (y :: a) (z :: b) = x * (y * z) + wdot w a b := by
  simp [wdot]

theorem wdot_nonneg {w : List α} (a : List α) (hw : ∀ x ∈ w, 0 ≤ x) :
    0 ≤ wdot w a a := by
  induction w generalizing a with
  | nil => simp
  | cons x w ih =>
      cases a with
      | nil => simp
      | cons y a =>
          rw [wdot_cons]
          have h1 : 0 ≤ x * (y * y) :=
            mul_nonneg (hw x (List.mem_cons_self _ _)) (mul_self_nonneg y)
          have h2 : 0 ≤ wdot w a a :=
            ih a (fun z hz => hw z (List.mem_cons_of_mem _ hz))
          linarith

/-- The key step of the discrete Cauchy-Schwarz inequality. -/
theorem cs_step {Sab Saa Sbb y z : α} (hab : Sab ^ 2 ≤ Saa * Sbb)
    (haa : 0 ≤ Saa) (hbb : 0 ≤ Sbb) :
    2 * y * z * Sab ≤ y ^ 2 * Sbb + z ^ 2 * Saa := by
  rcases eq_or_lt_of_le hbb with h0 | h0
  · have : Sab ^ 2 ≤ 0 := by nlinarith
    have hz : Sab = 0 := by nlinarith [sq_nonneg Sab]
    rw [hz]
    nlinarith [sq_nonneg y, sq_nonneg z]
  · nlinarith [sq_nonneg (y * Sbb - z * Sab), sq_nonneg (y * Sbb + z * Sab),
      mul_nonneg (sq_nonneg z) (sub_nonneg.mpr hab)]

/-- Discrete weighted Cauchy-Schwarz:
`(Σ w a b)² ≤ (Σ w a²) (Σ w b²)` for nonnegative weights. -/
theorem wdot_sq_le {w : List α} (a b : List α) (hw : ∀ x ∈ w, 0 ≤ x) :
    wdot w a b ^ 2 ≤ wdot w a a * wdot w b b := by
  induction w generalizing a b with
  | nil => simp
  | cons x w ih =>
      cases a with
      | nil => simp
      | cons y a =>
          cases b with
          | nil => simp
          | cons z b =>
              have hx : 0 ≤ x := hw x (List.mem_cons_self _ _)
              have hw' : ∀ t ∈ w, 0 ≤ t :=
                fun t ht => hw t (List.mem_cons_of_mem _ ht)
              have hIH : wdot w a b ^ 2 ≤ wdot w a a * wdot w b b := ih a b hw'
              have haa : 0 ≤ wdot w a a := wdot_nonneg a hw'
              have hbb : 0 ≤ wdot w b b := wdot_nonneg b hw'
              have hst : 2 * y * z * wdot w a b ≤
                  y ^ 2 * wdot w b b + z ^ 2 * wdot w a a :=
                cs_step hIH haa hbb
              have hst' : x * (2 * y * z * wdot w a b) ≤
                  x * (y ^ 2 * wdot w b b + z ^ 2 * wdot w a a) :=
                mul_le_mul_of_nonneg_left hst hx
              rw [wdot_cons, wdot_cons, wdot_cons]
              nlinarith [hIH, hst']

/-! ## Spec-side formula (claim C1)

The claim describes the result as
`sum(w_i*c1_i*c2_i) / (sqrt(sum(w_i*c1_i^2)) * sqrt(sum(w_i*c2_i^2)))`
with the sums ranging over the valid positions.  We build the list of
`(raw weight, value1, value2)` triples at the valid positions and spell the
formula out over it, independently of the numpy-style mask pipeline. -/

/-- The `(weight, value1, value2)` triples at the positions where neither
pattern is missing. -/
def validTriples {β : Type} (ps qs : List (Option β)) (ws : List β) :
    List (β × β × β) :=
  ((ps.zip qs).zip ws).filterMap (fun t =>
    match t with
    | ((some x, some y), w) => some (w, x, y)
    | _ => none)

@[simp] theorem validTriples_nil_ps {β : Type} (qs : List (Option β))
    (ws : List β) : validTriples [] qs ws = [] := by
  simp [validTriples]

@[simp] theorem validTriples_nil_qs {β : Type} (ps : List (Option β))
    (ws : List β) : validTriples ps [] ws = [] := by
  simp [validTriples]

@[simp] theorem validTriples_nil_ws {β : Type} (ps qs : List (Option β)) :
    validTriples ps qs ([] : List β) = [] := by
  simp [validTriples]

@[simp] theorem validTriples_cons_ss {β : Type} (x y : β)
    (ps qs : List (Option β)) (w : β) (ws : List β) :
    validTriples (some x :: ps) (some y :: qs) (w :: ws) =
      (w, x, y) :: validTriples ps qs ws := by
  simp [validTriples, List.zip]

@[simp] theorem validTriples_cons_nl {β : Type} (b : Option β)
    (ps qs : List (Option β)) (w : β) (ws : List β) :
    validTriples (none :: ps) (b :: qs) (w :: ws) = validTriples ps qs ws := by
  cases b <;> simp [validTriples, List.zip]

@[simp] theorem validTriples_cons_nr {β : Type} (x : β)
    (ps qs : List (Option β)) (w : β) (ws : List β) :
    validTriples (some x :: ps) (none :: qs) (w :: ws) =
      validTriples ps qs ws := by
  simp [validTriples, List.zip]

/-- The raw (pre-normalisation) weights entering the computation: the
supplied array's data, or ones. -/
def rawWeights (p1 : NDArray α) (weights : Option (WArray α)) : List α :=
  match weights with
  | none => List.replicate p1.data.length 1
  | some w => w.data

theorem triples_fst {β : Type} {ps qs : List (Option β)} {ws : List β}
    (hq : qs.length = ps.length) (hw : ws.length = ps.length) :
    maskFilter (validMask ps qs) ws =
      (validTriples ps qs ws).map (fun v => v.1) := by
  induction ps generalizing qs ws with
  | nil =>
      cases qs with
      | nil => simp
      | cons b qs => simp at hq
  | cons a ps ih =>
      cases qs with
      | nil => simp at hq
      | cons b qs =>
          cases ws with
          | nil => simp at hw
          | cons w ws =>
              simp only [List.length_cons, Nat.add_right_cancel_iff] at hq hw
              cases a <;> cases b <;>
                simp [ih hq hw]

theorem triples_snd {β : Type} [Zero β] {ps qs : List (Option β)}
    {ws : List β} (hq : qs.length = ps.length) (hw : ws.length = ps.length) :
    strip (maskFilter (validMask ps qs) ps) =
      (validTriples ps qs ws).map (fun v => v.2.1) := by
  induction ps generalizing qs ws with
  | nil =>
      cases qs with
      | nil => simp
      | cons b qs => simp at hq
  | cons a ps ih =>
      cases qs with
      | nil => simp at hq
      | cons b qs =>
          cases ws with
          | nil => simp at hw
          | cons w ws =>
              simp only [List.length_cons, Nat.add_right_cancel_iff] at hq hw
              cases a <;> cases b <;>
                simp [ih hq hw]

theorem triples_thd {β : Type} [Zero β] {ps qs : List (Option β)}
    {ws : List β} (hq : qs.length = ps.length) (hw : ws.length = ps.length) :
    strip (maskFilter (validMask ps qs) qs) =
      (validTriples ps qs ws).map (fun v => v.2.2) := by
  induction ps generalizing qs ws with
  | nil =>
      cases qs with
      | nil => simp
      | cons b qs => simp at hq
  | cons a ps ih =>
      cases qs with
      | nil => simp at hq
      | cons b qs =>
          cases ws with
          | nil => simp at hw
          | cons w ws =>
              simp only [List.length_cons, Nat.add_right_cancel_iff] at hq hw
              cases a <;> cases b <;>
                simp [ih hq hw]

theorem dot_map_map {β : Type} (l : List β) (f g : β → α) :
    dot (l.map f) (l.map g) = (l.map (fun x => f x * g x)).sum := by
  induction l with
  | nil => simp [dot]
  | cons x l ih =>
      simp only [List.map_cons, dot, List.zipWith_cons_cons, List.sum_cons]
      simp only [dot] at ih
      rw [ih]

theorem wdot_map_map {β : Type} (l : List β) (g f h : β → α) :
    wdot (l.map g) (l.map f) (l.map h) =
      (l.map (fun x => g x * (f x * h x))).sum := by
  induction l with
  | nil => simp
  | cons x l ih => simp [ih]

/-- `usedWeights` in terms of the raw weights: restrict to the valid set and
divide by the sum (also in the no-weights case, where restricting the list of
ones is the list of ones over the valid set). -/
theorem usedWeights_eq (p1 p2 : NDArray α) (weights : Option (WArray α)) :
    usedWeights p1 p2 weights =
      (maskFilter (validMask p1.data p2.data) (rawWeights p1 weights)).map
        (fun x =>
          x / (maskFilter (validMask p1.data p2.data)
                (rawWeights p1 weights)).sum) := by
  have hm : (validMask p1.data p2.data).length ≤ p1.data.length := by
    simp [validMask]
  cases weights with
  | some w => rfl
  | none =>
      have h1 : maskFilter (validMask p1.data p2.data)
          (List.replicate p1.data.length (1 : α)) =
          List.replicate ((validMask p1.data p2.data).count true) 1 :=
        maskFilter_replicate 1 hm
      have h2 : (strip (maskFilter (validMask p1.data p2.data) p1.data)).length
          = (validMask p1.data p2.data).count true := by
        simp [strip]
        exact maskFilter_length hm
      simp only [usedWeights, rawWeights, h1, h2]

/-- The valid-position triples for a given call. -/
def specTriples (p1 p2 : NDArray ℚ) (weights : Option (WArray ℚ)) :
    List (ℚ × ℚ × ℚ) :=
  validTriples p1.data p2.data (rawWeights p1 weights)

/-- Sum of the raw weights over the valid set (the normaliser). -/
def specWsum (p1 p2 : NDArray ℚ) (weights : Option (WArray ℚ)) : ℚ :=
  ((specTriples p1 p2 weights).map (fun v => v.1)).sum

/-- Weighted mean of the first pattern over the valid set (normalised
weights). -/
def specMean1 (p1 p2 : NDArray ℚ) (weights : Option (WArray ℚ)) : ℚ :=
  ((specTriples p1 p2 weights).map
    (fun v => v.2.1 * (v.1 / specWsum p1 p2 weights))).sum

/-- Weighted mean of the second pattern over the valid set. -/
def specMean2 (p1 p2 : NDArray ℚ) (weights : Option (WArray ℚ)) : ℚ :=
  ((specTriples p1 p2 weights).map
    (fun v => v.2.2 * (v.1 / specWsum p1 p2 weights))).sum

/-- `c1`: the valid value of pattern 1 minus its weighted mean when centering
is requested, the raw valid value otherwise. -/
def specC1 (p1 p2 : NDArray ℚ) (weights : Option (WArray ℚ))
    (centered : Bool) (v : ℚ × ℚ × ℚ) : ℚ :=
  if centered then v.2.1 - specMean1 p1 p2 weights else v.2.1

/-- `c2`: same for pattern 2. -/
def specC2 (p1 p2 : NDArray ℚ) (weights : Option (WArray ℚ))
    (centered : Bool) (v : ℚ × ℚ × ℚ) : ℚ :=
  if centered then v.2.2 - specMean2 p1 p2 weights else v.2.2

/-- `sum(w_i * c1_i * c2_i)` with `w` the normalised weight vector. -/
def specCov (p1 p2 : NDArray ℚ) (weights : Option (WArray ℚ))
    (centered : Bool) : ℚ :=
  ((specTriples p1 p2 weights).map
    (fun v => v.1 / specWsum p1 p2 weights *
      (specC1 p1 p2 weights centered v * specC2 p1 p2 weights centered v))).sum

/-- `sum(w_i * c1_i^2)`. -/
def specVar1 (p1 p2 : NDArray ℚ) (weights : Option (WArray ℚ))
    (centered : Bool) : ℚ :=
  ((specTriples p1 p2 weights).map
    (fun v => v.1 / specWsum p1 p2 weights *
      (specC1 p1 p2 weights centered v * specC1 p1 p2 weights centered v))).sum

/-- `sum(w_i * c2_i^2)`. -/
def specVar2 (p1 p2 : NDArray ℚ) (weights : Option (WArray ℚ))
    (centered : Bool) : ℚ :=
  ((specTriples p1 p2 weights).map
    (fun v => v.1 / specWsum p1 p2 weights *
      (specC2 p1 p2 weights centered v * specC2 p1 p2 weights centered v))).sum

/-- The claim's closed formula
`sum(w*c1*c2) / (sqrt(sum(w*c1^2)) * sqrt(sum(w*c2^2)))`. -/
noncomputable def specPearson (p1 p2 : NDArray ℚ)
    (weights : Option (WArray ℚ)) (centered : Bool) : ℝ :=
  ((specCov p1 p2 weights centered : ℚ) : ℝ) /
    (Real.sqrt ((specVar1 p1 p2 weights centered : ℚ) : ℝ) *
     Real.sqrt ((specVar2 p1 p2 weights centered : ℚ) : ℝ))

/-! ## Bridging the numpy-style pipeline to the spec formula -/

theorem rawWeights_length {p1 : NDArray ℚ} {weights : Option (WArray ℚ)}
    (hwsh : ∀ w, weights = some w → w.shape = p1.shape) :
    (rawWeights p1 weights).length = p1.data.length := by
  cases weights with
  | none => simp [rawWeights]
  | some w =>
      have h := hwsh w rfl
      simp [rawWeights, w.hlen, p1.hlen, h]

theorem data_length_eq {p1 p2 : NDArray ℚ} (hsh : p1.shape = p2.shape) :
    p2.data.length = p1.data.length := by
  rw [p1.hlen, p2.hlen, hsh]

/-- The full bridge: under the validation preconditions, every intermediate
list of the source pipeline is the corresponding projection of the
valid-position triples. -/
theorem pipeline_eq_spec {p1 p2 : NDArray ℚ} {weights : Option (WArray ℚ)}
    (centered : Bool) (hsh : p1.shape = p2.shape)
    (hwsh : ∀ w, weights = some w → w.shape = p1.shape) :
    usedWeights p1 p2 weights =
      (specTriples p1 p2 weights).map
        (fun v => v.1 / specWsum p1 p2 weights) ∧
    c1Vals p1 p2 weights centered =
      (specTriples p1 p2 weights).map (specC1 p1 p2 weights centered) ∧
    c2Vals p1 p2 weights centered =
      (specTriples p1 p2 weights).map (specC2 p1 p2 weights centered) := by
  have hq := data_length_eq hsh
  have hw := rawWeights_length hwsh
  have h1 : maskFilter (validMask p1.data p2.data) (rawWeights p1 weights) =
      (specTriples p1 p2 weights).map (fun v => v.1) :=
    triples_fst hq hw
  have h2 : strip (maskFilter (validMask p1.data p2.data) p1.data) =
      (specTriples p1 p2 weights).map (fun v => v.2.1) :=
    triples_snd hq hw
  have h3 : strip (maskFilter (validMask p1.data p2.data) p2.data) =
      (specTriples p1 p2 weights).map (fun v => v.2.2) :=
    triples_thd hq hw
  have hS : (maskFilter (validMask p1.data p2.data)
      (rawWeights p1 weights)).sum = specWsum p1 p2 weights := by
    rw [h1]; rfl
  have hwn : usedWeights p1 p2 weights =
      (specTriples p1 p2 weights).map
        (fun v => v.1 / specWsum p1 p2 weights) := by
    rw [usedWeights_eq, hS, h1, List.map_map]
    rfl
  refine ⟨hwn, ?_, ?_⟩
  · rw [c1Vals, centeredVals]
    have hv1 : (validVals p1 p2).1 =
        (specTriples p1 p2 weights).map (fun v => v.2.1) := h2
    cases centered with
    | false =>
        rw [if_neg (by simp), hv1]
        apply List.map_congr_left
        intro v _
        simp [specC1]
    | true =>
        rw [if_pos rfl, hv1, hwn, dot_map_map, List.map_map]
        apply List.map_congr_left
        intro v _
        simp [specC1, specMean1]
  · rw [c2Vals, centeredVals]
    have hv2 : (validVals p1 p2).2 =
        (specTriples p1 p2 weights).map (fun v => v.2.2) := h3
    cases centered with
    | false =>
        rw [if_neg (by simp), hv2]
        apply List.map_congr_left
        intro v _
        simp [specC2]
    | true =>
        rw [if_pos rfl, hv2, hwn, dot_map_map, List.map_map]
        apply List.map_congr_left
        intro v _
        simp [specC2, specMean2]

theorem corr_eq_spec {p1 p2 : NDArray ℚ} {weights : Option (WArray ℚ)}
    (centered : Bool) (hsh : p1.shape = p2.shape)
    (hwsh : ∀ w, weights = some w → w.shape = p1.shape) :
    corrCov p1 p2 weights centered = specCov p1 p2 weights centered ∧
    corrVar1 p1 p2 weights centered = specVar1 p1 p2 weights centered ∧
    corrVar2 p1 p2 weights centered = specVar2 p1 p2 weights centered := by
  obtain ⟨hwn, hc1, hc2⟩ := pipeline_eq_spec centered hsh hwsh
  refine ⟨?_, ?_, ?_⟩
  · rw [corrCov, hwn, hc1, hc2, wdot_map_map]; rfl
  · rw [corrVar1, hwn, hc1, wdot_map_map]; rfl
  · rw [corrVar2, hwn, hc2, wdot_map_map]; rfl

/-- The number of valid positions equals the number of triples. -/
theorem specTriples_length {p1 p2 : NDArray ℚ} {weights : Option (WArray ℚ)}
    (hsh : p1.shape = p2.shape)
    (hwsh : ∀ w, weights = some w → w.shape = p1.shape) :
    (specTriples p1 p2 weights).length =
      (validMask p1.data p2.data).count true := by
  have h1 : maskFilter (validMask p1.data p2.data) (rawWeights p1 weights) =
      (specTriples p1 p2 weights).map (fun v => v.1) :=
    triples_fst (data_length_eq hsh) (rawWeights_length hwsh)
  have h2 : (maskFilter (validMask p1.data p2.data)
      (rawWeights p1 weights)).length =
      (validMask p1.data p2.data).count true := by
    apply maskFilter_length
    rw [rawWeights_length hwsh]
    simp [validMask]
  rw [h1] at h2
  simpa using h2

/-! ## Helper characterisations of `usedWeights` -/

theorem mask_length_le (p1 p2 : NDArray α) :
    (validMask p1.data p2.data).length ≤ p1.data.length := by
  simp [validMask]

/-- With no weights supplied the weights used are `1/n` at each of the `n`
valid positions. -/
theorem usedWeights_none_eq (p1 p2 : NDArray α) :
    usedWeights p1 p2 none =
      List.replicate ((validMask p1.data p2.data).count true)
        (1 / (((validMask p1.data p2.data).count true : Nat) : α)) := by
  have hL : (strip (maskFilter (validMask p1.data p2.data) p1.data)).length =
      (validMask p1.data p2.data).count true := by
    simp only [strip, List.length_map]
    exact maskFilter_length (mask_length_le p1 p2)
  have hsum : (List.replicate ((validMask p1.data p2.data).count true)
      (1 : α)).sum = (((validMask p1.data p2.data).count true : Nat) : α) := by
    rw [sum_replicate_q, mul_one]
  simp only [usedWeights, hL, hsum, List.map_replicate]

/-- With weights supplied, the weights used are the valid-set restriction
divided by its sum (definitional). -/
theorem usedWeights_some_eq (p1 p2 : NDArray α) (wa : WArray α) :
    usedWeights p1 p2 (some wa) =
      (maskFilter (validMask p1.data p2.data) wa.data).map
        (fun x =>
          x / (maskFilter (validMask p1.data p2.data) wa.data).sum) := rfl

/-- The weights used in the sums are nonnegative whenever the supplied
weights are. -/
theorem usedWeights_nonneg (p1 p2 : NDArray α) (weights : Option (WArray α))
    (hw : ∀ wa, weights = some wa → ∀ x ∈ wa.data, 0 ≤ x) :
    ∀ x ∈ usedWeights p1 p2 weights, 0 ≤ x := by
  intro x hx
  cases weights with
  | none =>
      rw [usedWeights_none_eq] at hx
      rw [List.eq_of_mem_replicate hx]
      positivity
  | some wa =>
      rw [usedWeights_some_eq] at hx
      obtain ⟨y, hy, rfl⟩ := List.mem_map.mp hx
      have hy' : 0 ≤ y := hw wa rfl y (mem_of_mem_maskFilter hy)
      have hs : 0 ≤ (maskFilter (validMask p1.data p2.data) wa.data).sum :=
        List.sum_nonneg (fun z hz => hw wa rfl z (mem_of_mem_maskFilter hz))
      exact div_nonneg hy' hs

theorem dot_replicate (n : Nat) (a b : α) :
    dot (List.replicate n a) (List.replicate n b) = (n : α) * (a * b) := by
  induction n with
  | zero => simp [dot]
  | succ n ih =>
      simp only [List.replicate_succ, dot, List.zipWith_cons_cons,
        List.sum_cons]
      simp only [dot] at ih
      rw [ih]
      push_cast
      ring

theorem wdot_replicate (n : Nat) (a b c : α) :
    wdot (List.replicate n a) (List.replicate n b) (List.replicate n c) =
      (n : α) * (a * (b * c)) := by
  induction n with
  | zero => simp
  | succ n ih =>
      simp only [List.replicate_succ, wdot_cons, ih]
      push_cast
      ring

/-! ## The claims -/

/-- C5 (amended): a pattern-shape mismatch always fails with the (pattern)
shape-mismatch error; a weight array of wrong shape fails with the
weight-shape-mismatch error provided the patterns themselves have equal
shapes and at least one position is valid in both -- otherwise an earlier
check fires first (see the counterexample). -/
theorem claim_C5_shape_mismatch :
    (∀ (p1 p2 : NDArray ℚ) (w : Option (WArray ℚ)) (c : Bool),
      p1.shape ≠ p2.shape →
      calculate_pattern_correlation p1 p2 w c = .error .shapeMismatch) ∧
    (∀ (p1 p2 : NDArray ℚ) (wa : WArray ℚ) (c : Bool),
      p1.shape = p2.shape →
      (validMask p1.data p2.data).count true ≠ 0 →
      wa.shape ≠ p1.shape →
      calculate_pattern_correlation p1 p2 (some wa) c =
        .error .weightShapeMismatch) := by
  constructor
  · intro p1 p2 w c h
    rw [calc_error_iff]
    exact checkedCore_of_shape_ne h
  · intro p1 p2 wa c hsh h0 hw
    rw [calc_error_iff]
    exact checkedCore_of_badWeight hsh h0 (by simp [badWeightShape, hw])

/-- C5, the claim as stated is false: with two equal-shaped all-NaN patterns
and a weight array of the wrong shape, the call fails with the empty-input
error, not a shape-mismatch error. -/
theorem claim_C5_counterexample :
    calculate_pattern_correlation
      (⟨[1], [none], by simp⟩ : NDArray ℚ) ⟨[1], [none], by simp⟩
      (some ⟨[2], [1, 1], by simp⟩) true = .error .emptyInput ∧
    (Except.error CorrError.emptyInput : Except CorrError ℝ) ≠
      .error .weightShapeMismatch ∧
    (Except.error CorrError.emptyInput : Except CorrError ℝ) ≠
      .error .shapeMismatch := by
  refine ⟨?_, by simp, by simp⟩
  rw [calc_error_iff]
  exact checkedCore_of_empty rfl (by decide)

/-- C6 (confirmed): for equal-shaped patterns the call fails with the
empty-input error exactly when no position is valid in both patterns
(valid = neither entry is NaN); in particular an all-NaN pattern always
fails this way. -/
theorem claim_C6_empty_iff (p1 p2 : NDArray ℚ) (w : Option (WArray ℚ))
    (c : Bool) (hsh : p1.shape = p2.shape) :
    calculate_pattern_correlation p1 p2 w c = .error .emptyInput ↔
      (validMask p1.data p2.data).count true = 0 := by
  rw [calc_error_iff]
  constructor
  · intro h
    by_contra h0
    by_cases hb : badWeightShape p1 w = true
    · rw [checkedCore_of_badWeight hsh h0 hb] at h
      simp at h
    · have hb' : badWeightShape p1 w = false := by simpa using hb
      by_cases hv : corrVar1 p1 p2 w c < tol ∨ corrVar2 p1 p2 w c < tol
      · rw [checkedCore_of_lowVar hsh h0 hb' hv] at h
        simp at h
      · push_neg at hv
        rw [checkedCore_of_ok hsh h0 hb' hv.1 hv.2] at h
        simp at h
  · intro h0
    exact checkedCore_of_empty hsh h0

/-- C10 (confirmed): the validations run in a fixed order -- pattern shapes,
then the empty-input check, then the weight-shape check -- so with several
violations the earliest check's error is raised.  The second part holds for
EVERY weight argument, wrongly shaped or not: two all-NaN patterns with a
wrongly shaped weight array raise the empty-input error. -/
theorem claim_C10_check_order :
    (∀ (p1 p2 : NDArray ℚ) (w : Option (WArray ℚ)) (c : Bool),
      p1.shape ≠ p2.shape →
      calculate_pattern_correlation p1 p2 w c = .error .shapeMismatch) ∧
    (∀ (p1 p2 : NDArray ℚ) (w : Option (WArray ℚ)) (c : Bool),
      p1.shape = p2.shape →
      (validMask p1.data p2.data).count true = 0 →
      calculate_pattern_correlation p1 p2 w c = .error .emptyInput) ∧
    (∀ (p1 p2 : NDArray ℚ) (wa : WArray ℚ) (c : Bool),
      p1.shape = p2.shape →
      (validMask p1.data p2.data).count true ≠ 0 →
      wa.shape ≠ p1.shape →
      calculate_pattern_correlation p1 p2 (some wa) c =
        .error .weightShapeMismatch) := by
  refine ⟨?_, ?_, ?_⟩
  · intro p1 p2 w c h
    rw [calc_error_iff]
    exact checkedCore_of_shape_ne h
  · intro p1 p2 w c hsh h0
    rw [calc_error_iff]
    exact checkedCore_of_empty hsh h0
  · intro p1 p2 wa c hsh h0 hw
    rw [calc_error_iff]
    exact checkedCore_of_badWeight hsh h0 (by simp [badWeightShape, hw])

/-- C9 (confirmed): with area weighting requested the wrapper fails with the
missing-dimension error whenever the latitude dimension is absent from the
first field's dimensions (the source only consults `data1.dims`); with area
weighting disabled it delegates to the core correlation with no weights. -/
theorem claim_C9_wrapper :
    (∀ (d1 d2 : DataArray) (latd lond : String),
      latd ∉ d1.dims →
      calculate_spatial_correlation d1 d2 latd lond true =
        .error .missingDimension) ∧
    (∀ (d1 d2 : DataArray) (latd lond : String),
      calculate_spatial_correlation d1 d2 latd lond false =
        calculate_pattern_correlation d1.arr d2.arr none true) := by
  constructor
  · intro d1 d2 latd lond h
    rw [calculate_spatial_correlation, if_pos rfl, if_pos h]
  · intro d1 d2 latd lond
    rfl

/-- C7 (confirmed): a uniform weight array -- every cell the same positive
constant `k`, with the patterns' shape -- gives the same result as no
weights, for every pattern pair and both centering settings. -/
theorem claim_C7_uniform_weights (p1 p2 : NDArray ℚ) (c : Bool) (k : ℚ)
    (hk : 0 < k) :
    calculate_pattern_correlation p1 p2
      (some ⟨p1.shape, List.replicate p1.shape.prod k, by simp⟩) c =
      calculate_pattern_correlation p1 p2 none c := by
  have hlen : (validMask p1.data p2.data).length ≤ p1.shape.prod := by
    rw [← p1.hlen]
    exact mask_length_le p1 p2
  have hu : usedWeights p1 p2
      (some ⟨p1.shape, List.replicate p1.shape.prod k, by simp⟩) =
      usedWeights p1 p2 none := by
    rw [usedWeights_some_eq, usedWeights_none_eq]
    show (maskFilter (validMask p1.data p2.data)
        (List.replicate p1.shape.prod k)).map _ = _
    rw [maskFilter_replicate k hlen, sum_replicate_q, List.map_replicate]
    rcases Nat.eq_zero_or_pos ((validMask p1.data p2.data).count true)
      with h0 | h0
    · rw [h0]
      simp
    · congr 1
      have hn : (((validMask p1.data p2.data).count true : Nat) : ℚ) ≠ 0 := by
        exact_mod_cast h0.ne'
      rw [mul_comm, ← div_div, div_self hk.ne']
  have hc1 : c1Vals p1 p2
      (some ⟨p1.shape, List.replicate p1.shape.prod k, by simp⟩) c =
      c1Vals p1 p2 none c := by
    rw [c1Vals, c1Vals, hu]
  have hc2 : c2Vals p1 p2
      (some ⟨p1.shape, List.replicate p1.shape.prod k, by simp⟩) c =
      c2Vals p1 p2 none c := by
    rw [c2Vals, c2Vals, hu]
  have hcov : corrCov p1 p2
      (some ⟨p1.shape, List.replicate p1.shape.prod k, by simp⟩) c =
      corrCov p1 p2 none c := by
    rw [corrCov, corrCov, hu, hc1, hc2]
  have hV1 : corrVar1 p1 p2
      (some ⟨p1.shape, List.replicate p1.shape.prod k, by simp⟩) c =
      corrVar1 p1 p2 none c := by
    rw [corrVar1, corrVar1, hu, hc1]
  have hV2 : corrVar2 p1 p2
      (some ⟨p1.shape, List.replicate p1.shape.prod k, by simp⟩) c =
      corrVar2 p1 p2 none c := by
    rw [corrVar2, corrVar2, hu, hc2]
  have hb : badWeightShape p1
      (some (⟨p1.shape, List.replicate p1.shape.prod k, by simp⟩ :
        WArray ℚ)) = false := by
    simp [badWeightShape]
  have hcore : checkedCore p1 p2
      (some ⟨p1.shape, List.replicate p1.shape.prod k, by simp⟩) c =
      checkedCore p1 p2 none c := by
    rw [checkedCore, checkedCore, hb, hcov, hV1, hV2]
    rfl
  rw [calculate_pattern_correlation, calculate_pattern_correlation, hcore]

/-- C8 (amended): the weights entering the sums are the supplied weights
restricted to the valid positions, divided by their sum -- so they sum to 1
PROVIDED that sum is nonzero (an all-zero weight array breaks the claim, see
the counterexample); with no weights they are uniform `1/n` over the `n`
valid positions and sum to 1 whenever a valid position exists. -/
theorem claim_C8_normalized_weights :
    (∀ (p1 p2 : NDArray ℚ) (wa : WArray ℚ),
      usedWeights p1 p2 (some wa) =
        (maskFilter (validMask p1.data p2.data) wa.data).map
          (fun x =>
            x / (maskFilter (validMask p1.data p2.data) wa.data).sum) ∧
      ((maskFilter (validMask p1.data p2.data) wa.data).sum ≠ 0 →
        (usedWeights p1 p2 (some wa)).sum = 1)) ∧
    (∀ (p1 p2 : NDArray ℚ),
      usedWeights p1 p2 none =
        List.replicate ((validMask p1.data p2.data).count true)
          (1 / (((validMask p1.data p2.data).count true : Nat) : ℚ)) ∧
      ((validMask p1.data p2.data).count true ≠ 0 →
        (usedWeights p1 p2 none).sum = 1)) := by
  constructor
  · intro p1 p2 wa
    refine ⟨usedWeights_some_eq p1 p2 wa, fun hs => ?_⟩
    rw [usedWeights_some_eq, sum_map_div, div_self hs]
  · intro p1 p2
    refine ⟨usedWeights_none_eq p1 p2, fun h0 => ?_⟩
    rw [usedWeights_none_eq, sum_replicate_q]
    have hn : (((validMask p1.data p2.data).count true : Nat) : ℚ) ≠ 0 := by
      exact_mod_cast h0
    field_simp

/-- C8, the claim as stated is false: an all-zero weight array (matching
shape, nonnegative) yields used weights that sum to 0, not 1 (numpy divides
by the zero sum). -/
theorem claim_C8_counterexample :
    (usedWeights (⟨[2], [some 1, some 2], by simp⟩ : NDArray ℚ)
      ⟨[2], [some 1, some 2], by simp⟩
      (some ⟨[2], [0, 0], by simp⟩)).sum = 0 ∧ (0 : ℚ) ≠ 1 := by
  constructor
  · norm_num [usedWeights_some_eq, validMask, maskFilter, strip]
  · norm_num

/-- C4 (amended): a constant pattern (no NaNs) against any equal-shaped
pattern with at least one valid position fails with the zero-variance error
when centering is on; likewise every single-element pair with both entries
present when centering is on.  (An all-NaN partner raises empty-input
instead, and with centering OFF a single-element pair can succeed: see the
counterexample.) -/
theorem claim_C4_zero_variance :
    (∀ (p1 p2 : NDArray ℚ) (k : ℚ),
      p1.shape = p2.shape →
      (∀ o ∈ p1.data, o = some k) →
      (validMask p1.data p2.data).count true ≠ 0 →
      calculate_pattern_correlation p1 p2 none true =
        .error .zeroVariance) ∧
    (∀ (p1 p2 : NDArray ℚ) (x y : ℚ),
      p1.shape = p2.shape → p1.data = [some x] → p2.data = [some y] →
      calculate_pattern_correlation p1 p2 none true =
        .error .zeroVariance) := by
  have part1 : ∀ (p1 p2 : NDArray ℚ) (k : ℚ), p1.shape = p2.shape →
      (∀ o ∈ p1.data, o = some k) →
      (validMask p1.data p2.data).count true ≠ 0 →
      calculate_pattern_correlation p1 p2 none true =
        .error .zeroVariance := by
    intro p1 p2 k hsh hconst h0
    rw [calc_error_iff]
    have hv1 : (validVals p1 p2).1 =
        List.replicate ((validMask p1.data p2.data).count true) k := by
      have hmem : ∀ z ∈ (validVals p1 p2).1, z = k := by
        intro z hz
        simp only [validVals, strip, List.mem_map] at hz
        obtain ⟨o, ho, rfl⟩ := hz
        rw [hconst o (mem_of_mem_maskFilter ho)]
        rfl
      have hlen : (validVals p1 p2).1.length =
          (validMask p1.data p2.data).count true := by
        simp only [validVals, strip, List.length_map]
        exact maskFilter_length (mask_length_le p1 p2)
      rw [← hlen]
      exact List.eq_replicate_of_mem hmem
    have hn : (((validMask p1.data p2.data).count true : Nat) : ℚ) ≠ 0 := by
      exact_mod_cast h0
    have hmean : dot (validVals p1 p2).1 (usedWeights p1 p2 none) = k := by
      rw [hv1, usedWeights_none_eq, dot_replicate]
      field_simp
    have hc1 : c1Vals p1 p2 none true =
        List.replicate ((validMask p1.data p2.data).count true) (0 : ℚ) := by
      rw [c1Vals, centeredVals, if_pos rfl, hmean, hv1, List.map_replicate,
        sub_self]
    have hvar : corrVar1 p1 p2 none true = 0 := by
      rw [corrVar1, hc1, usedWeights_none_eq, wdot_replicate]
      ring
    refine checkedCore_of_lowVar hsh h0 ?_ (Or.inl ?_)
    · rfl
    · rw [hvar, tol]
      norm_num
  refine ⟨part1, ?_⟩
  intro p1 p2 x y hsh hd1 hd2
  apply part1 p1 p2 x hsh
  · rw [hd1]
    intro o ho
    simpa using ho
  · rw [hd1, hd2]
    simp

/-- C1 (confirmed): for equal-shaped patterns (and a matching-shape weight
array if one is supplied) with at least one valid position and both weighted
variances at or above the tolerance, the call returns exactly
`sum(w*c1*c2) / (sqrt(sum(w*c1^2)) * sqrt(sum(w*c2^2)))`, the sums ranging
over the valid positions, `w` the normalised weight vector, and `c1`, `c2`
the valid values minus their weighted means (centered) or the raw valid
values (uncentered). -/
theorem claim_C1_pearson_formula (p1 p2 : NDArray ℚ)
    (weights : Option (WArray ℚ)) (centered : Bool)
    (hsh : p1.shape = p2.shape)
    (hwsh : ∀ w, weights = some w → w.shape = p1.shape)
    (hne : specTriples p1 p2 weights ≠ [])
    (hv1 : tol ≤ specVar1 p1 p2 weights centered)
    (hv2 : tol ≤ specVar2 p1 p2 weights centered) :
    calculate_pattern_correlation p1 p2 weights centered =
      .ok (specPearson p1 p2 weights centered) := by
  obtain ⟨hcov, hV1, hV2⟩ := corr_eq_spec centered hsh hwsh
  have h0 : (validMask p1.data p2.data).count true ≠ 0 := by
    have hl := specTriples_length hsh hwsh
    intro hc
    rw [hc] at hl
    exact hne (List.length_eq_zero.mp hl)
  have hb : badWeightShape p1 weights = false := by
    cases weights with
    | none => rfl
    | some w => simp [badWeightShape, hwsh w rfl]
  have hv1' : tol ≤ corrVar1 p1 p2 weights centered := by
    rw [hV1]; exact hv1
  have hv2' : tol ≤ corrVar2 p1 p2 weights centered := by
    rw [hV2]; exact hv2
  rw [calc_of_ok (checkedCore_of_ok hsh h0 hb hv1' hv2')]
  congr 1
  simp only [corrOfTriple, specPearson, hcov, hV1, hV2]

/-- C3 (amended): whenever `correlation(P, P)` with default arguments
(no weights, centered) returns a value, that value is exactly 1. -/
theorem claim_C3_self_correlation (p : NDArray ℚ) (r : ℝ)
    (hok : calculate_pattern_correlation p p none true = .ok r) : r = 1 := by
  obtain ⟨hc, hv1, hv2, hr⟩ := calc_ok_inv hok
  have hcc : corrCov p p none true = corrVar1 p p none true := rfl
  have hvv : corrVar2 p p none true = corrVar1 p p none true := rfl
  have hvpos : (0 : ℚ) < corrVar1 p p none true :=
    lt_of_lt_of_le (by rw [tol]; norm_num) hv1
  have hvR : (0 : ℝ) < ((corrVar1 p p none true : ℚ) : ℝ) := by
    exact_mod_cast hvpos
  rw [hr]
  simp only [corrOfTriple, hcc, hvv]
  rw [Real.mul_self_sqrt hvR.le]
  exact div_self hvR.ne'

/-- C3, the claim as stated is false: for a constant (here single-element)
pattern the self-correlation call raises the zero-variance error rather
than returning 1. -/
theorem claim_C3_counterexample :
    calculate_pattern_correlation (⟨[1], [some 5], by simp⟩ : NDArray ℚ)
      ⟨[1], [some 5], by simp⟩ none true = .error .zeroVariance ∧
    (Except.error CorrError.zeroVariance : Except CorrError ℝ) ≠
      .ok (1 : ℝ) := by
  refine ⟨?_, by simp⟩
  rw [calc_error_iff]
  norm_num [checkedCore, validMask, validVals, usedWeights, centeredVals,
    badWeightShape, corrVar1, corrVar2, corrCov, c1Vals, c2Vals, wdot, dot,
    maskFilter, strip, tol, List.replicate]

set_option linter.unusedVariables false in
/-- C2 (amended): with no weights, or with a nonnegative supplied weight
array whose sum over the valid positions is nonzero, every value the call
returns lies in [-1, 1] -- for every pair of patterns and both centering
settings.  (A mixed-sign weight array can push the result outside the
interval, see the counterexample; and an all-zero weight array makes the
source normalise by `0.0`, so it returns NaN rather than a value in the
interval.)  The nonzero-sum hypothesis `hs` is what keeps this statement
true of the floating-point source; in the exact-rational model the zero-sum
path raises the zero-variance error instead of returning NaN, so the proof
itself does not need to consume `hs`. -/
theorem claim_C2_bounded (p1 p2 : NDArray ℚ) (weights : Option (WArray ℚ))
    (centered : Bool) (r : ℝ)
    (hw : ∀ wa, weights = some wa → ∀ x ∈ wa.data, 0 ≤ x)
    (hs : ∀ wa, weights = some wa →
      (maskFilter (validMask p1.data p2.data) wa.data).sum ≠ 0)
    (hok : calculate_pattern_correlation p1 p2 weights centered = .ok r) :
    -1 ≤ r ∧ r ≤ 1 := by
  obtain ⟨hc, hv1, hv2, hr⟩ := calc_ok_inv hok
  have hwn := usedWeights_nonneg p1 p2 weights hw
  have hcs : corrCov p1 p2 weights centered ^ 2 ≤
      corrVar1 p1 p2 weights centered * corrVar2 p1 p2 weights centered :=
    wdot_sq_le _ _ hwn
  have htolq : (0 : ℚ) < tol := by rw [tol]; norm_num
  have hv1q : (0 : ℚ) < corrVar1 p1 p2 weights centered :=
    lt_of_lt_of_le htolq hv1
  have hv2q : (0 : ℚ) < corrVar2 p1 p2 weights centered :=
    lt_of_lt_of_le htolq hv2
  have hV1R : (0 : ℝ) < ((corrVar1 p1 p2 weights centered : ℚ) : ℝ) := by
    exact_mod_cast hv1q
  have hV2R : (0 : ℝ) < ((corrVar2 p1 p2 weights centered : ℚ) : ℝ) := by
    exact_mod_cast hv2q
  have hcsR : ((corrCov p1 p2 weights centered : ℚ) : ℝ) ^ 2 ≤
      ((corrVar1 p1 p2 weights centered : ℚ) : ℝ) *
      ((corrVar2 p1 p2 weights centered : ℚ) : ℝ) := by
    exact_mod_cast hcs
  have habs : |((corrCov p1 p2 weights centered : ℚ) : ℝ)| ≤
      Real.sqrt ((corrVar1 p1 p2 weights centered : ℚ) : ℝ) *
      Real.sqrt ((corrVar2 p1 p2 weights centered : ℚ) : ℝ) := by
    rw [← Real.sqrt_sq_eq_abs, ← Real.sqrt_mul hV1R.le]
    exact Real.sqrt_le_sqrt hcsR
  have hden : 0 < Real.sqrt ((corrVar1 p1 p2 weights centered : ℚ) : ℝ) *
      Real.sqrt ((corrVar2 p1 p2 weights centered : ℚ) : ℝ) :=
    mul_pos (Real.sqrt_pos.mpr hV1R) (Real.sqrt_pos.mpr hV2R)
  have hb : |r| ≤ 1 := by
    rw [hr]
    simp only [corrOfTriple]
    rw [abs_div, abs_of_pos hden]
    exact (div_le_one hden).mpr habs
  exact abs_le.mp hb

/-- C2, the claim as stated is false: with the mixed-sign weight array
`[2, -1]` (sum 1) and centering off, patterns `[1, 1]` and `[1, -1]` give
the value 3, outside [-1, 1].  (Checked against numpy: all steps are exact
in binary floating point, and the source returns 3.0.) -/
theorem claim_C2_counterexample :
    calculate_pattern_correlation (⟨[2], [some 1, some 1], by simp⟩ : NDArray ℚ)
      ⟨[2], [some 1, some (-1)], by simp⟩ (some ⟨[2], [2, -1], by simp⟩)
      false = .ok (3 : ℝ) ∧ ¬((3 : ℝ) ≤ 1) := by
  constructor
  · have hc : checkedCore (⟨[2], [some 1, some 1], by simp⟩ : NDArray ℚ)
        ⟨[2], [some 1, some (-1)], by simp⟩ (some ⟨[2], [2, -1], by simp⟩)
        false = .ok (3, 1, 1) := by
      norm_num [checkedCore, validMask, validVals, usedWeights, centeredVals,
        badWeightShape, corrVar1, corrVar2, corrCov, c1Vals, c2Vals, wdot,
        dot, maskFilter, strip, tol]
    rw [calc_of_ok hc]
    norm_num [corrOfTriple, Real.sqrt_one]
  · norm_num

/-- C4, the claim as stated is false on two counts: with centering OFF a
single-element pair `[5]`, `[3]` does not raise zero-variance (it succeeds),
and a constant pattern paired with an all-NaN pattern raises empty-input
instead. -/
theorem claim_C4_counterexample :
    calculate_pattern_correlation (⟨[1], [some 5], by simp⟩ : NDArray ℚ)
      ⟨[1], [some 3], by simp⟩ none false ≠ .error .zeroVariance ∧
    calculate_pattern_correlation (⟨[1], [some 1], by simp⟩ : NDArray ℚ)
      ⟨[1], [none], by simp⟩ none true = .error .emptyInput := by
  constructor
  · have hc : checkedCore (⟨[1], [some 5], by simp⟩ : NDArray ℚ)
        ⟨[1], [some 3], by simp⟩ none false = .ok (15, 25, 9) := by
      norm_num [checkedCore, validMask, validVals, usedWeights, centeredVals,
        badWeightShape, corrVar1, corrVar2, corrCov, c1Vals, c2Vals, wdot,
        dot, maskFilter, strip, tol, List.replicate]
    rw [calc_of_ok hc]
    simp
  · rw [calc_error_iff]
    exact checkedCore_of_empty rfl (by decide)

/-! ## Witnesses: the claim theorems applied at concrete inputs -/

/-- Witness for C1 at `[1, 2]` vs `[2, 1]`, no weights, centered: the
variance hypotheses hold (both variances are 1/4) and the call returns the
spec formula. -/
theorem claim_C1_witness :
    tol ≤ specVar1 (⟨[2], [some 1, some 2], by simp⟩ : NDArray ℚ)
      ⟨[2], [some 2, some 1], by simp⟩ none true ∧
    calculate_pattern_correlation
      (⟨[2], [some 1, some 2], by simp⟩ : NDArray ℚ)
      ⟨[2], [some 2, some 1], by simp⟩ none true =
      .ok (specPearson (⟨[2], [some 1, some 2], by simp⟩ : NDArray ℚ)
        ⟨[2], [some 2, some 1], by simp⟩ none true) :=
  ⟨by norm_num [specVar1, specTriples, rawWeights, specWsum,
      specMean1, specMean2, specC1, specC2, tol, List.replicate],
   claim_C1_pearson_formula _ _ none true rfl (fun w h => by cases h)
     (by simp [specTriples, rawWeights, List.replicate])
     (by norm_num [specVar1, specTriples, rawWeights, specWsum,
        specMean1, specMean2, specC1, specC2, tol, List.replicate])
     (by norm_num [specVar2, specTriples, rawWeights, specWsum,
        specMean1, specMean2, specC1, specC2, tol, List.replicate])⟩

/-- Witness for C2 at `[1, 2]` vs `[2, 1]` with the nonnegative weight
array `[1, 3]` (sum over the valid set 4, nonzero), centered: the returned
value (which is -1) lies in [-1, 1]. -/
theorem claim_C2_witness :
    -1 ≤ corrOfTriple (((-(3/16) : ℚ) : ℝ), (((3/16) : ℚ) : ℝ),
      (((3/16) : ℚ) : ℝ)) ∧
    corrOfTriple (((-(3/16) : ℚ) : ℝ), (((3/16) : ℚ) : ℝ),
      (((3/16) : ℚ) : ℝ)) ≤ 1 :=
  by
  have hc : checkedCore (⟨[2], [some 1, some 2], by simp⟩ : NDArray ℚ)
      ⟨[2], [some 2, some 1], by simp⟩ (some ⟨[2], [1, 3], by simp⟩) true =
      .ok (-(3/16), 3/16, 3/16) := by
    norm_num [checkedCore, validMask, validVals, usedWeights, centeredVals,
      badWeightShape, corrVar1, corrVar2, corrCov, c1Vals, c2Vals, wdot,
      dot, maskFilter, strip, tol, List.replicate]
  refine claim_C2_bounded _ _ (some ⟨[2], [1, 3], by simp⟩) true _
    ?_ ?_ (calc_of_ok hc)
  · intro wa h x hx
    cases h
    simp only [List.mem_cons, List.not_mem_nil, or_false] at hx
    rcases hx with rfl | rfl <;> norm_num
  · intro wa h
    cases h
    norm_num [validMask, maskFilter]

/-- Witness for C3 at the two-point pattern `[1, 2]`: the self-correlation
returns, and the returned value is 1. -/
theorem claim_C3_witness :
    calculate_pattern_correlation
      (⟨[2], [some 1, some 2], by simp⟩ : NDArray ℚ)
      ⟨[2], [some 1, some 2], by simp⟩ none true = .ok (1 : ℝ) := by
  have hc : checkedCore (⟨[2], [some 1, some 2], by simp⟩ : NDArray ℚ)
      ⟨[2], [some 1, some 2], by simp⟩ none true = .ok (1/4, 1/4, 1/4) := by
    norm_num [checkedCore, validMask, validVals, usedWeights, centeredVals,
      badWeightShape, corrVar1, corrVar2, corrCov, c1Vals, c2Vals, wdot,
      dot, maskFilter, strip, tol, List.replicate]
  have hok := calc_of_ok hc
  have h1 := claim_C3_self_correlation _ _ hok
  rw [hok, h1]

/-- Witness for C4: a constant two-point pattern against a non-constant one
(centered, one valid position at least) raises zero-variance, and so does
the all-valid single-element pair `[5]`, `[7]` (centered). -/
theorem claim_C4_witness :
    calculate_pattern_correlation (⟨[2], [some 2, some 2], by simp⟩ : NDArray ℚ)
      ⟨[2], [some 0, some 1], by simp⟩ none true = .error .zeroVariance ∧
    calculate_pattern_correlation (⟨[1], [some 5], by simp⟩ : NDArray ℚ)
      ⟨[1], [some 7], by simp⟩ none true = .error .zeroVariance :=
  ⟨claim_C4_zero_variance.1 _ _ 2 rfl (by simp) (by decide),
   claim_C4_zero_variance.2 _ _ 5 7 rfl rfl rfl⟩

/-- Witness for C5: differing pattern shapes raise the shape-mismatch
error, and (with equal pattern shapes and a valid position) a wrongly
shaped weight array raises the weight-shape error. -/
theorem claim_C5_witness :
    calculate_pattern_correlation (⟨[1], [some 1], by simp⟩ : NDArray ℚ)
      ⟨[2], [some 1, some 1], by simp⟩ none true = .error .shapeMismatch ∧
    calculate_pattern_correlation (⟨[1], [some 1], by simp⟩ : NDArray ℚ)
      ⟨[1], [some 2], by simp⟩ (some ⟨[3], [1, 1, 1], by simp⟩) true =
      .error .weightShapeMismatch :=
  ⟨claim_C5_shape_mismatch.1 _ _ none true (by decide),
   claim_C5_shape_mismatch.2 _ _ _ true rfl (by decide) (by decide)⟩

/-- Witness for C6: a pair with no jointly valid position raises the
empty-input error. -/
theorem claim_C6_witness :
    calculate_pattern_correlation (⟨[1], [none], by simp⟩ : NDArray ℚ)
      ⟨[1], [some 2], by simp⟩ none true = .error .emptyInput :=
  (claim_C6_empty_iff _ _ none true rfl).mpr (by decide)

/-- Witness for C7 at `[1, 2]` vs `[2, 1]` with the uniform weight 2. -/
theorem claim_C7_witness :
    calculate_pattern_correlation
      (⟨[2], [some 1, some 2], by simp⟩ : NDArray ℚ)
      ⟨[2], [some 2, some 1], by simp⟩
      (some ⟨(⟨[2], [some 1, some 2], by simp⟩ : NDArray ℚ).shape,
        List.replicate (⟨[2], [some 1, some 2], by simp⟩ :
          NDArray ℚ).shape.prod 2, by simp⟩) true =
    calculate_pattern_correlation
      (⟨[2], [some 1, some 2], by simp⟩ : NDArray ℚ)
      ⟨[2], [some 2, some 1], by simp⟩ none true :=
  claim_C7_uniform_weights _ _ true 2 (by norm_num)

/-- Witness for C8 with the weight array `[1, 3]` over an all-valid pair:
the used weights sum to 1 in both the supplied-weights and the no-weights
mode. -/
theorem claim_C8_witness :
    (usedWeights (⟨[2], [some 1, some 2], by simp⟩ : NDArray ℚ)
      ⟨[2], [some 1, some 2], by simp⟩
      (some ⟨[2], [1, 3], by simp⟩)).sum = 1 ∧
    (usedWeights (⟨[2], [some 1, some 2], by simp⟩ : NDArray ℚ)
      ⟨[2], [some 1, some 2], by simp⟩ none).sum = 1 :=
  ⟨(claim_C8_normalized_weights.1 _ _ _).2
     (by norm_num [validMask, maskFilter]),
   (claim_C8_normalized_weights.2 _ _).2 (by decide)⟩

/-- Witness for C9: a field whose only dimension is named "x" raises the
missing-dimension error under area weighting, and delegates to the core
with no weights when area weighting is off. -/
theorem claim_C9_witness :
    calculate_spatial_correlation
      (⟨["x"], fun _ => [], ⟨[1], [some 1], by simp⟩⟩ : DataArray)
      ⟨["x"], fun _ => [], ⟨[1], [some 1], by simp⟩⟩ "lat" "lon" true =
      .error .missingDimension ∧
    calculate_spatial_correlation
      (⟨["x"], fun _ => [], ⟨[1], [some 1], by simp⟩⟩ : DataArray)
      ⟨["x"], fun _ => [], ⟨[1], [some 1], by simp⟩⟩ "lat" "lon" false =
      calculate_pattern_correlation
        (⟨["x"], fun _ => [], ⟨[1], [some 1], by simp⟩⟩ : DataArray).arr
        (⟨["x"], fun _ => [], ⟨[1], [some 1], by simp⟩⟩ : DataArray).arr
        none true :=
  ⟨claim_C9_wrapper.1 _ _ "lat" "lon" (by simp),
   claim_C9_wrapper.2 _ _ "lat" "lon"⟩

/-- Witness for C10: with several simultaneous violations the earliest
check's error is raised -- differing shapes beat everything; with equal
shapes, two all-NaN patterns beat a wrongly shaped weight array (the
empty-input error is raised); the weight-shape error only surfaces once the
earlier checks pass. -/
theorem claim_C10_witness :
    calculate_pattern_correlation (⟨[1], [none], by simp⟩ : NDArray ℚ)
      ⟨[2], [none, none], by simp⟩ (some ⟨[5], [1, 1, 1, 1, 1], by simp⟩)
      true = .error .shapeMismatch ∧
    calculate_pattern_correlation (⟨[2], [none, none], by simp⟩ : NDArray ℚ)
      ⟨[2], [none, none], by simp⟩ (some ⟨[1], [1], by simp⟩) true =
      .error .emptyInput ∧
    calculate_pattern_correlation (⟨[2], [some 1, some 2], by simp⟩ : NDArray ℚ)
      ⟨[2], [some 3, some 4], by simp⟩ (some ⟨[1], [1], by simp⟩) true =
      .error .weightShapeMismatch :=
  ⟨claim_C10_check_order.1 _ _ _ true (by decide),
   claim_C10_check_order.2.1 _ _ _ true rfl (by decide),
   claim_C10_check_order.2.2 _ _ _ true rfl (by decide) (by decide)⟩

end PatternCorrelation
